import Mathlib

/-!
Shallow embedding of the lead-enrichment pipeline of src/mcp-enrichment/server.js.
JS numbers appearing in the scores are embedded as Nat (the lead score, which is
always a whole number) and as rationals (the confidence arithmetic); JS strings
as String; values that may be undefined as Option. Each definition transcribes
the function of the same name from the source file.
-/

namespace Enrichment

/-- Character class of the regex range a-z0-9: lowercase ASCII letters and digits. -/
def isAlnumChar (c : Char) : Bool :=
  ('a' ≤ c && c ≤ 'z') || ('0' ≤ c && c ≤ '9')

/-- Whitespace characters matched by the backslash-s regex class (ASCII range). -/
def isSpaceChar (c : Char) : Bool :=
  c = ' ' || c = '\t' || c = '\n' || c = '\r'

/-- Model of the JS toLowerCase call (ASCII range, which is all that the regexes
in this file distinguish). -/
def lowerStr (s : String) : String :=
  String.mk (s.data.map Char.toLower)

/-- listLeads sub l is true when sub occurs at the start of l. -/
def listLeads : List Char → List Char → Bool
  | [], _ => true
  | _ :: _, [] => false
  | c :: cs, d :: ds => (c = d) && listLeads cs ds

/-- listHas sub l is true when sub occurs somewhere inside l: the semantics of
the JS includes method on character lists. -/
def listHas (sub : List Char) : List Char → Bool
  | [] => listLeads sub []
  | c :: cs => listLeads sub (c :: cs) || listHas sub cs

/-- JS s.includes(sub). -/
def strIncludes (s sub : String) : Bool := listHas sub.data s.data

/-- listEndsWith l suf is true when suf occurs at the end of l. -/
def listEndsWith (l suf : List Char) : Bool := listLeads suf.reverse l.reverse

/-- JS s.endsWith(suf). -/
def strEndsWith (s suf : String) : Bool := listEndsWith s.data suf.data

/-- JS s.split(sep) for a single-character separator. -/
def charSplit (sep : Char) : List Char → List (List Char)
  | [] => [[]]
  | c :: cs =>
    if c = sep then [] :: charSplit sep cs
    else
      match charSplit sep cs with
      | [] => [[c]]
      | h :: t => (c :: h) :: t

/-- The cleaned company slug used by findOfficialWebsite and by
calculateEmailConfidence: toLowerCase, then the regex deleting every character
outside the range a-z0-9. -/
def stripAlnumLower (s : String) : String :=
  String.mk ((lowerStr s).data.filter isAlnumChar)

/-- The slug built inside guessDomain: toLowerCase, then the regex deleting every
character outside a-z0-9 and whitespace, then the regex deleting whitespace. -/
def cleanNameGuess (s : String) : String :=
  String.mk ((((lowerStr s).data.filter (fun c => isAlnumChar c || isSpaceChar c)).filter
    (fun c => !isSpaceChar c)))

/-- toLowerCase followed by the regex deleting whitespace runs, as used by
performWebSearch and findSocialMedia for their templated URLs. -/
def noSpacesLower (s : String) : String :=
  String.mk ((lowerStr s).data.filter (fun c => !isSpaceChar c))

structure WebResult where
  title : String
  url : String
  snippet : String
deriving DecidableEq, Repr

structure EmailCandidate where
  email : String
  confidence : ℚ
  source : String
  validated : Bool
  priority : Nat
deriving DecidableEq, Repr

structure Founder where
  name : String
  position : String
  confidence : ℚ
  source : String
  found_via : String
  verified : Bool
deriving DecidableEq, Repr

structure Profile where
  company_name : Option String
  phone : Option String
  location : String
  industry : Option String
  emails : List EmailCandidate
  founders : List Founder
  website : Option String
  social_media : List (String × String)
  lead_score : Nat
  confidence_score : ℚ
  sources : List String
  processing_time_ms : Nat
  enriched_at : String
  enrichment_error : Option String
deriving DecidableEq, Repr

/-- JS truthiness of a possibly-undefined string: undefined and the empty string
are falsy. -/
def optStrTruthy : Option String → Bool
  | none => false
  | some s => s != ""

/-- JS a or-else b on possibly-undefined strings (the logical-or operator). -/
def jsOr (a b : Option String) : Option String :=
  match a with
  | some s => if s = "" then b else some s
  | none => b

/-- JS string interpolation of a possibly-undefined value. -/
def jsTemplateStr : Option String → String
  | none => "undefined"
  | some s => s

/-- getEmailPriority of server.js: rank of the local part, tested by substring
inclusion on the whole address. -/
def getEmailPriority (email : String) : Nat :=
  if strIncludes email "contacto@" then 1
  else if strIncludes email "info@" then 2
  else if strIncludes email "ventas@" then 3
  else if strIncludes email "administracion@" then 4
  else if strIncludes email "gerencia@" then 5
  else 6

/-- The test email.includes(contacto@) or email.includes(info@), shared by the
confidence bonus and the first two rows of the priority table. -/
def emailHi (email : String) : Bool :=
  strIncludes email "contacto@" || strIncludes email "info@"

/-- The expression email.split(at-sign)[1]: undefined when the address has no
at-sign. -/
def domainOf (email : String) : Option (List Char) :=
  (charSplit '@' email.data).get? 1

/-- calculateEmailConfidence of server.js. The three bonuses read the split-off
domain (with its JS truthiness test) and the full address. -/
def calculateEmailConfidence (email companyName : String) : ℚ :=
  let cleanCompany := stripAlnumLower companyName
  let c1 : ℚ := 1/2
  let c2 := c1 + (match domainOf email with
    | some d => if !d.isEmpty && listHas (cleanCompany.data.take 8) d then 3/10 else 0
    | none => 0)
  let c3 := c2 + (if emailHi email then 1/5 else 0)
  let c4 := c3 + (match domainOf email with
    | some d => if !d.isEmpty && listEndsWith d ".com.mx".data then 1/10 else 0
    | none => 0)
  min c4 1

/-- calculateEmailConfidence with the contacto-or-info bonus removed and before
clamping; used to factor proofs about the shared part of the formula. -/
def emailBase (email companyName : String) : ℚ :=
  let cleanCompany := stripAlnumLower companyName
  (1/2 : ℚ) + (match domainOf email with
    | some d => if !d.isEmpty && listHas (cleanCompany.data.take 8) d then 3/10 else 0
    | none => 0)
    + (match domainOf email with
    | some d => if !d.isEmpty && listEndsWith d ".com.mx".data then 1/10 else 0
    | none => 0)

/-- Model of the hostname field produced by the JS URL constructor (a runtime
builtin, not code under src), adequate for http and https URLs; none models the
constructor throwing on other inputs. -/
def urlHostname (u : String) : Option String :=
  if listLeads "https://".data u.data then
    some (String.mk ((u.data.drop 8).takeWhile (fun c => c != '/')))
  else if listLeads "http://".data u.data then
    some (String.mk ((u.data.drop 7).takeWhile (fun c => c != '/')))
  else none

/-- guessDomain of server.js: the hostname of the supplied website when it
parses, otherwise the cleaned company slug with the fixed .com.mx ending. -/
def guessDomain (companyName : String) (website : Option String) : String :=
  match website with
  | some w =>
    match urlHostname w with
    | some h => h
    | none => cleanNameGuess companyName ++ ".com.mx"
  | none => cleanNameGuess companyName ++ ".com.mx"

/-- The per-result test of findOfficialWebsite: the lowercased URL contains the
cleaned company name and contains one of the three TLD substrings. -/
def officialSiteCond (cleanName : String) (r : WebResult) : Bool :=
  let url := lowerStr r.url
  strIncludes url cleanName &&
    (strIncludes url ".com.mx" || strIncludes url ".mx" || strIncludes url ".com")

/-- findOfficialWebsite of server.js: the for loop returns the URL of the first
matching result, in original case. -/
def findOfficialWebsite (webResults : List WebResult) (companyName : String) : Option String :=
  (webResults.find? (officialSiteCond (stripAlnumLower companyName))).map (fun r => r.url)

/-- The total preorder imposed by the email sort comparator of server.js:
confidence descending as primary key, then priority ascending. jsLe a b holds
when a may come no later than b in the sorted output. -/
def jsLe (a b : EmailCandidate) : Prop :=
  b.confidence < a.confidence ∨ (a.confidence = b.confidence ∧ a.priority ≤ b.priority)

instance : DecidableRel jsLe := fun a b =>
  inferInstanceAs (Decidable (b.confidence < a.confidence ∨
    (a.confidence = b.confidence ∧ a.priority ≤ b.priority)))

instance : IsTotal EmailCandidate jsLe := ⟨by
  intro a b
  rcases lt_trichotomy a.confidence b.confidence with h | h | h
  · exact Or.inr (Or.inl h)
  · rcases Nat.le_total a.priority b.priority with hp | hp
    · exact Or.inl (Or.inr ⟨h, hp⟩)
    · exact Or.inr (Or.inr ⟨h.symm, hp⟩)
  · exact Or.inl (Or.inl h)⟩

instance : IsTrans EmailCandidate jsLe := ⟨by
  intro a b c hab hbc
  rcases hab with h1 | ⟨e1, p1⟩
  · rcases hbc with h2 | ⟨e2, p2⟩
    · exact Or.inl (h2.trans h1)
    · exact Or.inl (e2 ▸ h1)
  · rcases hbc with h2 | ⟨e2, p2⟩
    · refine Or.inl ?_
      rw [e1]
      exact h2
    · exact Or.inr ⟨e1.trans e2, p1.trans p2⟩⟩

/-- The sortedness the specification asks of the returned email sequence:
priority ascending as primary key, confidence descending as secondary key. -/
def prioThenConf (a b : EmailCandidate) : Prop :=
  a.priority < b.priority ∨ (a.priority = b.priority ∧ b.confidence ≤ a.confidence)

/-- The eight fixed local parts of the pattern list, in source order. -/
def emailLocals : List String :=
  ["contacto", "info", "ventas", "administracion", "gerencia", "atencion",
   "comercial", "director"]

/-- One generated candidate, as pushed by the pattern loop. -/
def mkCandidate (companyName email : String) : EmailCandidate :=
  { email := email, confidence := calculateEmailConfidence email companyName,
    source := "pattern_generation", validated := false,
    priority := getEmailPriority email }

/-- findContactEmails of server.js: generate the eight patterns when the guessed
domain is truthy, sort with the comparator (a stable sort, embedded as insertion
sort over the comparator preorder), and keep the first five. -/
def findContactEmails (companyName : String) (website : Option String) : List EmailCandidate :=
  let domain := guessDomain companyName website
  let emails := if domain = "" then []
    else emailLocals.map (fun L => mkCandidate companyName (L ++ "@" ++ domain))
  (List.insertionSort jsLe emails).take 5

/-- The industry keyword table of detectIndustry, in source order. -/
def industriesTable : List (String × List String) :=
  [("restaurante", ["taco", "comida", "restaurant", "cocina", "menu"]),
   ("panadería", ["pan", "panadería", "repostería", "pastel"]),
   ("construcción", ["construcción", "edificación", "obra", "albañil"]),
   ("tecnología", ["software", "tech", "sistema", "digital", "web"]),
   ("servicios", ["servicio", "consultoría", "asesoría", "mantenimiento"]),
   ("comercio", ["tienda", "venta", "comercio", "negocio"]),
   ("salud", ["clínica", "médico", "dental", "farmacia"]),
   ("educación", ["escuela", "academia", "instituto", "curso"])]

/-- The join call with a single space, as applied to the snippet array. -/
def joinSpace : List String → String
  | [] => ""
  | h :: t => t.foldl (fun acc s => acc ++ " " ++ s) h

/-- detectIndustry of server.js: first industry, in table order, one of whose
keywords occurs in the lowercased name or in the joined lowercased snippets. -/
def detectIndustry (companyName : String) (webResults : List WebResult) : String :=
  let text := lowerStr companyName
  let webText := lowerStr (joinSpace (webResults.map (fun r => r.snippet)))
  match industriesTable.find? (fun p =>
      p.2.any (fun k => strIncludes text k || strIncludes webText k)) with
  | some p => p.1
  | none => "general"

/-- calculateLeadScore of server.js: base 20 plus the bounded bonuses, clamped
to 100. -/
def calculateLeadScore (r : Profile) : Nat :=
  let s1 := 20
  let s2 := s1 + (if r.emails.length > 0 then 20 + min (r.emails.length * 3) 10 else 0)
  let s3 := s2 + (if r.founders.length > 0 then 25 else 0)
  let s4 := s3 + (if optStrTruthy r.website then 15 else 0)
  let s5 := s4 + (if optStrTruthy r.industry ∧ r.industry ≠ some "general" then 10 else 0)
  let s6 := s5 + (if r.social_media.length > 0 then 5 else 0)
  let s7 := s6 + (if r.sources.length > 2 then 5 else 0)
  min s7 100

/-- The factors accumulator of calculateConfidenceScore: the sum of the weights
of the present signal categories. -/
def confidenceFactors (r : Profile) : ℚ :=
  (if r.emails.length > 0 then (2 : ℚ)/5 else 0)
    + (if r.founders.length > 0 then (3 : ℚ)/10 else 0)
    + (if r.sources.length > 0 then (3 : ℚ)/10 else 0)

/-- The confidence accumulator of calculateConfidenceScore: mean email
confidence weighted 2/5, mean founder confidence weighted 3/10, and the capped
source-count term. -/
def confidenceNumerator (r : Profile) : ℚ :=
  (if r.emails.length > 0 then
    ((r.emails.map (fun e => e.confidence)).sum / (r.emails.length : ℚ)) * (2/5) else 0)
    + (if r.founders.length > 0 then
    ((r.founders.map (fun f => f.confidence)).sum / (r.founders.length : ℚ)) * (3/10) else 0)
    + (if r.sources.length > 0 then
    min ((r.sources.length : ℚ) * (1/10)) (3/10) else 0)

/-- calculateConfidenceScore of server.js: the quotient of the two accumulators,
guarded by the positivity test on factors. -/
def calculateConfidenceScore (r : Profile) : ℚ :=
  if 0 < confidenceFactors r then confidenceNumerator r / confidenceFactors r else 0

/-- performWebSearch of server.js: the two templated synthetic results. -/
def performWebSearch (companyName location : String) : List WebResult :=
  [{ title := companyName ++ " - Empresa en " ++ location,
     url := "https://" ++ noSpacesLower companyName ++ ".com.mx",
     snippet := "Información de " ++ companyName ++ " ubicada en " ++ location ++
       ". Servicios y contacto." },
   { title := "Contacto " ++ companyName,
     url := "https://directorio." ++ noSpacesLower companyName ++ ".mx",
     snippet := "Directorio de contacto para " ++ companyName ++ ". Teléfonos y emails." }]

/-- Nondeterministic inputs of one enrichment call: the Math.random draws of
searchFounders and findSocialMedia, and the wall-clock readings. -/
structure Env where
  foundersCount : Fin 3
  fb : Bool
  ig : Bool
  li : Bool
  elapsedMs : Nat
  nowIso : String
deriving DecidableEq, Repr

/-- The static candidate roster of searchFounders. -/
def foundersRoster : List (String × String × ℚ) :=
  [("María González", "Fundadora y CEO", 4/5),
   ("Carlos Martínez", "Director General", 7/10),
   ("Ana López", "Propietaria", 3/5)]

/-- searchFounders of server.js: a randomized count of zero to two entries taken
from the fixed roster. -/
def searchFounders (companyName location : String) (count : Fin 3) : List Founder :=
  (foundersRoster.take count.val).map (fun t =>
    { name := t.1, position := t.2.1, confidence := t.2.2, source := "web_search",
      found_via := companyName ++ " " ++ location ++ " fundador", verified := false })

/-- findSocialMedia of server.js: randomized presence of three platforms with
templated URLs (the twitter template is built but never added). -/
def findSocialMedia (companyName : String) (env : Env) : List (String × String) :=
  let cleanName := noSpacesLower companyName
  (if env.fb then [("facebook", "https://facebook.com/" ++ cleanName)] else [])
    ++ (if env.ig then [("instagram", "https://instagram.com/" ++ cleanName)] else [])
    ++ (if env.li then [("linkedin", "https://linkedin.com/company/" ++ cleanName)] else [])

/-- performWebSearch as called with a possibly-undefined name: with undefined,
the toLowerCase call inside its try block throws and the catch returns []. -/
def performWebSearchJS : Option String → String → List WebResult
  | none, _ => []
  | some n, loc => performWebSearch n loc

/-- findContactEmails as called with a possibly-undefined name: with undefined,
guessDomain throws inside the try block and the catch returns []. -/
def findContactEmailsJS : Option String → Option String → List EmailCandidate
  | none, _ => []
  | some n, w => findContactEmails n w

/-- findSocialMedia as called with a possibly-undefined name: with undefined,
the toLowerCase call inside its try block throws and the catch returns {}. -/
def findSocialMediaJS : Option String → Env → List (String × String)
  | none, _ => []
  | some n, env => findSocialMedia n env

/-- Message of the TypeError thrown by detectIndustry when companyName is
undefined, the one exception reachable inside the orchestrator try block. -/
def typeErrorMsg : String := "Cannot read properties of undefined (reading 'toLowerCase')"

/-- Steps five and six of the orchestrator (social media, scoring, timing),
reached when no exception occurred earlier. -/
def finishEnrichment (name? phone? : Option String) (location : String)
    (industry : Option String) (website : Option String) (emails : List EmailCandidate)
    (founders : List Founder) (sources4 : List String) (env : Env) : Profile :=
  let social := findSocialMediaJS name? env
  let sources5 := sources4 ++ (if social.length > 0 then ["social_media"] else [])
  let p : Profile :=
    { company_name := name?, phone := phone?, location := location, industry := industry,
      emails := emails, founders := founders, website := website, social_media := social,
      lead_score := 0, confidence_score := 0, sources := sources5,
      processing_time_ms := 0, enriched_at := env.nowIso, enrichment_error := none }
  { p with lead_score := calculateLeadScore p,
           confidence_score := calculateConfidenceScore p,
           processing_time_ms := env.elapsedMs }

/-- enrichCompanyComplete of server.js: the sequential enrichment steps inside
the outer try-catch. The only exception reachable inside the try block is the
TypeError of detectIndustry, raised exactly when the name is undefined and no
truthy industry was supplied; the catch then returns the partially built profile
with enrichment_error and processing_time_ms set. -/
def enrichCompanyComplete (name? phone? : Option String) (location : String)
    (industry? : Option String) (env : Env) : Profile :=
  let webResults := performWebSearchJS name? location
  let sources1 : List String := if webResults.length > 0 then ["web_search"] else []
  let official : Option String :=
    if webResults.length > 0 then
      match name? with
      | some n => findOfficialWebsite webResults n
      | none => none
    else none
  let website : Option String := if optStrTruthy official then official else none
  let sources2 := sources1 ++ (if optStrTruthy official then ["official_website"] else [])
  let emails := findContactEmailsJS name? website
  let sources3 := sources2 ++ (if emails.length > 0 then ["email_generation"] else [])
  let founders := searchFounders (jsTemplateStr name?) location env.foundersCount
  let sources4 := sources3 ++ (if founders.length > 0 then ["founder_search"] else [])
  if optStrTruthy industry? then
    finishEnrichment name? phone? location industry? website emails founders sources4 env
  else
    match name? with
    | none =>
      { company_name := name?, phone := phone?, location := location, industry := industry?,
        emails := emails, founders := founders, website := website, social_media := [],
        lead_score := 0, confidence_score := 0, sources := sources4,
        processing_time_ms := env.elapsedMs, enriched_at := env.nowIso,
        enrichment_error := some typeErrorMsg }
    | some n =>
      finishEnrichment name? phone? location (some (detectIndustry n webResults)) website
        emails founders sources4 env

structure CacheEntry where
  key : String
  profile : Profile
  writtenAt : Nat
deriving DecidableEq, Repr

/-- The Redis key template enrichment:name:location. -/
def cacheKey (name? : Option String) (location : String) : String :=
  "enrichment:" ++ jsTemplateStr name? ++ ":" ++ location

/-- Redis setEx with the fixed 3600 second TTL: replaces any entry under the key. -/
def cacheSet (entries : List CacheEntry) (k : String) (p : Profile) (now : Nat) :
    List CacheEntry :=
  { key := k, profile := p, writtenAt := now } :: entries.filter (fun e => e.key != k)

/-- What a TTL cache read at time now would return: the entry under the key
written less than 3600 seconds ago. The server never performs such a read. -/
def cacheGetLive (entries : List CacheEntry) (k : String) (now : Nat) : Option Profile :=
  (entries.find? (fun e => e.key == k && now < e.writtenAt + 3600)).map (fun e => e.profile)

/-- enrichCompanyComplete together with its cache side effect. The setEx call is
the last statement of the try block, so it runs exactly when no exception
occurred (equivalently, when enrichment_error is unset) and the Redis client is
open; the cache is never read before computing. -/
def enrichWithCache (entries : List CacheEntry) (redisOpen : Bool)
    (name? phone? : Option String) (location : String) (industry? : Option String)
    (env : Env) (now : Nat) : Profile × List CacheEntry :=
  let r := enrichCompanyComplete name? phone? location industry? env
  if redisOpen && (r.enrichment_error == none) then
    (r, cacheSet entries (cacheKey name? location) r now)
  else (r, entries)

/-- One incoming company record of the batch endpoint, with the alternate field
names the handler tolerates; a missing field is undefined. -/
structure CompanyRecord where
  company_name : Option String := none
  empresa : Option String := none
  phone : Option String := none
  telefono : Option String := none
  location : Option String := none
  ubicacion : Option String := none
  industry : Option String := none
  sector : Option String := none
deriving DecidableEq, Repr

/-- The location argument of the batch handler: location, else ubicacion, else
the fixed default. -/
def recLocation (c : CompanyRecord) : String :=
  (jsOr (jsOr c.location c.ubicacion) (some "México")).getD "México"

/-- Argument extraction of the batch handler around enrichCompanyComplete. -/
def enrichFromRecord (c : CompanyRecord) (env : Env) : Profile :=
  enrichCompanyComplete (jsOr c.company_name c.empresa) (jsOr c.phone c.telefono)
    (recLocation c) (jsOr c.industry c.sector) env

structure BatchResponse where
  processed : Nat
  successful : Nat
  failed : Nat
  results : List Profile
deriving DecidableEq, Repr

/-- The JS success test of the batch aggregation: enrichment_error is falsy. -/
def profileOk (p : Profile) : Bool := !(optStrTruthy p.enrichment_error)

/-- The enrich-batch handler loop with its aggregate counts. The function
enrichCompanyComplete is total, so the per-item catch branch is unreachable; the
gated database save and the fixed inter-item delay do not affect the response
fields modelled here. -/
def enrichBatch (companies : List CompanyRecord) (envs : Nat → Env) : BatchResponse :=
  let enriched := companies.enum.map (fun ic => enrichFromRecord ic.2 (envs ic.1))
  let successCount := (enriched.filter profileOk).length
  { processed := enriched.length, successful := successCount,
    failed := enriched.length - successCount, results := enriched }

/-- Worker of stripOcc, structurally recursive on a fuel bound so that it
evaluates inside the kernel; the fuel never runs out when it starts at the
length of the list, since every step consumes at least one element. -/
def stripOccAux (sub : List Char) : Nat → List Char → List Char
  | 0, l => l
  | _ + 1, [] => []
  | fuel + 1, c :: cs =>
    if !sub.isEmpty && listLeads sub (c :: cs) then
      stripOccAux sub fuel (cs.drop (sub.length - 1))
    else c :: stripOccAux sub fuel cs

/-- stripOcc sub l removes every leftmost, non-overlapping occurrence of sub
from l. Helper for the spec-described domain guesser below. -/
def stripOcc (sub l : List Char) : List Char := stripOccAux sub l.length l

/-- Modelled from the spec: the domain guesser described by the specification,
which first strips the Mexican legal-entity suffixes (case-insensitively, via
the lowercased text) and only then strips the non-alphanumerics and appends the
fixed ending. The code under src has no suffix-stripping step; this definition
exists only to compare the two behaviours. -/
def guessDomainSpec (companyName : String) : String :=
  let lowered := (lowerStr companyName).data
  let t1 := stripOcc "s.a. de c.v.".data lowered
  let t2 := stripOcc "s. de r.l. de c.v.".data t1
  let t3 := stripOcc "s.c.".data t2
  String.mk (t3.filter isAlnumChar) ++ ".com.mx"

/-- A fixed profile standing for the content of a pre-existing cache entry,
distinguishable from any freshly computed profile by its company_name. -/
def cachedProfileEx : Profile :=
  { company_name := some "CACHED", phone := none, location := "México",
    industry := none, emails := [], founders := [], website := none,
    social_media := [], lead_score := 77, confidence_score := 0, sources := [],
    processing_time_ms := 0, enriched_at := "T0", enrichment_error := none }

/-! Theorems. The claim theorems are stated over the embedded definitions
above; helper lemmas come first. -/

/-- Claim C10: calculateLeadScore never returns less than the unconditional
base score of 20, a lower bound strictly above the 0 floor the spec states. -/
theorem calculateLeadScore_lower_bound (r : Profile) : 20 ≤ calculateLeadScore r := by
  simp only [calculateLeadScore]
  split_ifs <;> omega

set_option maxHeartbeats 1000000 in
/-- Claim C2: calculateLeadScore stays within [0,100], and adding any single
signal (one more email, one more founder, a non-empty website, a non-empty
industry other than general, one more social media entry, one more source)
never decreases the score. -/
theorem calculateLeadScore_bounded_monotone (r : Profile) :
    (0 ≤ calculateLeadScore r ∧ calculateLeadScore r ≤ 100)
    ∧ (∀ e, calculateLeadScore r ≤ calculateLeadScore { r with emails := e :: r.emails })
    ∧ (∀ f, calculateLeadScore r ≤ calculateLeadScore { r with founders := f :: r.founders })
    ∧ (∀ w : String, w ≠ "" →
        calculateLeadScore r ≤ calculateLeadScore { r with website := some w })
    ∧ (∀ s : String, s ≠ "" → s ≠ "general" →
        calculateLeadScore r ≤ calculateLeadScore { r with industry := some s })
    ∧ (∀ kv, calculateLeadScore r ≤ calculateLeadScore { r with social_media := kv :: r.social_media })
    ∧ (∀ s, calculateLeadScore r ≤ calculateLeadScore { r with sources := s :: r.sources }) := by
  refine ⟨⟨Nat.zero_le _, ?_⟩, ?_, ?_, ?_, ?_, ?_, ?_⟩
  · simp only [calculateLeadScore]
    split_ifs <;> omega
  · intro e
    simp only [calculateLeadScore]
    simp only [List.length_cons]
    split_ifs <;> omega
  · intro f
    simp only [calculateLeadScore]
    simp only [List.length_cons]
    split_ifs <;> omega
  · intro w hw
    have hwt : optStrTruthy (some w) = true := by
      simp [optStrTruthy, hw]
    simp only [calculateLeadScore]
    simp only [hwt]
    split_ifs <;> omega
  · intro s hs1 hs2
    have hst : optStrTruthy (some s) = true := by
      simp [optStrTruthy, hs1]
    have hsg : some s ≠ some "general" := by
      simp [hs2]
    simp only [calculateLeadScore]
    rw [if_pos (show optStrTruthy (some s) = true ∧ some s ≠ some "general" from ⟨hst, hsg⟩)]
    split_ifs <;> omega
  · intro kv
    simp only [calculateLeadScore]
    simp only [List.length_cons]
    split_ifs <;> omega
  · intro s
    simp only [calculateLeadScore]
    simp only [List.length_cons]
    split_ifs <;> omega

/-- Witness for claim C2 at a concrete profile, discharging the two
hypothesised clauses (non-empty website, non-general industry). -/
theorem calculateLeadScore_bounded_monotone_witness :
    calculateLeadScore
        { company_name := some "Tacos", phone := none, location := "México",
          industry := none, emails := [], founders := [], website := none,
          social_media := [], lead_score := 0, confidence_score := 0, sources := [],
          processing_time_ms := 0, enriched_at := "T", enrichment_error := none }
      ≤ calculateLeadScore
        { company_name := some "Tacos", phone := none, location := "México",
          industry := some "salud", emails := [], founders := [], website := none,
          social_media := [], lead_score := 0, confidence_score := 0, sources := [],
          processing_time_ms := 0, enriched_at := "T", enrichment_error := none } :=
  (calculateLeadScore_bounded_monotone
    { company_name := some "Tacos", phone := none, location := "México",
      industry := none, emails := [], founders := [], website := none,
      social_media := [], lead_score := 0, confidence_score := 0, sources := [],
      processing_time_ms := 0, enriched_at := "T", enrichment_error := none
      }).2.2.2.2.1 "salud" (by decide) (by decide)

/-- Sum of a list of rationals each inside [0,1] lies inside [0, length]. -/
theorem sum_unit_bounds (l : List ℚ) (h : ∀ x ∈ l, 0 ≤ x ∧ x ≤ 1) :
    0 ≤ l.sum ∧ l.sum ≤ (l.length : ℚ) := by
  induction l with
  | nil => simp
  | cons a t ih =>
    have ha := h a (by simp)
    have ht := ih (fun x hx => h x (by simp [hx]))
    simp only [List.sum_cons, List.length_cons]
    constructor
    · linarith [ha.1, ht.1]
    · push_cast
      linarith [ha.2, ht.2]

/-- Mean of a non-empty list of rationals each inside [0,1] lies inside [0,1]. -/
theorem mean_unit_bounds (l : List ℚ) (hne : l ≠ []) (h : ∀ x ∈ l, 0 ≤ x ∧ x ≤ 1) :
    0 ≤ l.sum / (l.length : ℚ) ∧ l.sum / (l.length : ℚ) ≤ 1 := by
  have hlen : (0 : ℚ) < (l.length : ℚ) := by
    exact_mod_cast List.length_pos.mpr hne
  have hs := sum_unit_bounds l h
  exact ⟨div_nonneg hs.1 hlen.le, (div_le_one hlen).mpr hs.2⟩

/-- Claim C3: calculateConfidenceScore is exactly 0 when emails, founders and
sources are all empty; stays inside [0,1] whenever the stored confidences
respect the data model range [0,1]; and the factors denominator is positive as
soon as any category is present, so the division is never by zero. -/
theorem calculateConfidenceScore_spec (r : Profile) :
    (r.emails = [] → r.founders = [] → r.sources = [] → calculateConfidenceScore r = 0)
    ∧ ((∀ e ∈ r.emails, 0 ≤ e.confidence ∧ e.confidence ≤ 1) →
       (∀ f ∈ r.founders, 0 ≤ f.confidence ∧ f.confidence ≤ 1) →
       0 ≤ calculateConfidenceScore r ∧ calculateConfidenceScore r ≤ 1)
    ∧ ((r.emails ≠ [] ∨ r.founders ≠ [] ∨ r.sources ≠ []) → 0 < confidenceFactors r) := by
  refine ⟨?_, ?_, ?_⟩
  · intro h1 h2 h3
    simp [calculateConfidenceScore, confidenceFactors, h1, h2, h3]
  · intro he hf
    have hterm1 : 0 ≤ (if r.emails.length > 0 then
          ((r.emails.map (fun e => e.confidence)).sum / (r.emails.length : ℚ)) * (2/5) else 0)
        ∧ (if r.emails.length > 0 then
          ((r.emails.map (fun e => e.confidence)).sum / (r.emails.length : ℚ)) * (2/5) else 0)
          ≤ (if r.emails.length > 0 then (2 : ℚ)/5 else 0) := by
      split_ifs with h
      · have hne : r.emails.map (fun e => e.confidence) ≠ [] := by
          simp [List.length_pos.mp (by simpa using h)]
        have hmem : ∀ x ∈ r.emails.map (fun e => e.confidence), 0 ≤ x ∧ x ≤ 1 := by
          intro x hx
          obtain ⟨e, hel, rfl⟩ := List.mem_map.mp hx
          exact he e hel
        have hb := mean_unit_bounds _ hne hmem
        rw [List.length_map] at hb
        constructor
        · have := hb.1
          positivity
        · nlinarith [hb.1, hb.2]
      · simp
    have hterm2 : 0 ≤ (if r.founders.length > 0 then
          ((r.founders.map (fun f => f.confidence)).sum / (r.founders.length : ℚ)) * (3/10) else 0)
        ∧ (if r.founders.length > 0 then
          ((r.founders.map (fun f => f.confidence)).sum / (r.founders.length : ℚ)) * (3/10) else 0)
          ≤ (if r.founders.length > 0 then (3 : ℚ)/10 else 0) := by
      split_ifs with h
      · have hne : r.founders.map (fun f => f.confidence) ≠ [] := by
          simp [List.length_pos.mp (by simpa using h)]
        have hmem : ∀ x ∈ r.founders.map (fun f => f.confidence), 0 ≤ x ∧ x ≤ 1 := by
          intro x hx
          obtain ⟨f, hfl, rfl⟩ := List.mem_map.mp hx
          exact hf f hfl
        have hb := mean_unit_bounds _ hne hmem
        rw [List.length_map] at hb
        constructor
        · have := hb.1
          positivity
        · nlinarith [hb.1, hb.2]
      · simp
    have hterm3 : 0 ≤ (if r.sources.length > 0 then
          min ((r.sources.length : ℚ) * (1/10)) (3/10) else 0)
        ∧ (if r.sources.length > 0 then
          min ((r.sources.length : ℚ) * (1/10)) (3/10) else 0)
          ≤ (if r.sources.length > 0 then (3 : ℚ)/10 else 0) := by
      split_ifs with h
      · constructor
        · apply le_min
          · positivity
          · norm_num
        · exact min_le_right _ _
      · simp
    have hnum : 0 ≤ confidenceNumerator r ∧ confidenceNumerator r ≤ confidenceFactors r := by
      unfold confidenceNumerator confidenceFactors
      constructor
      · linarith [hterm1.1, hterm2.1, hterm3.1]
      · linarith [hterm1.2, hterm2.2, hterm3.2]
    unfold calculateConfidenceScore
    split_ifs with hpos
    · exact ⟨div_nonneg hnum.1 hpos.le, (div_le_one hpos).mpr hnum.2⟩
    · norm_num
  · intro hpres
    have h1 : 0 ≤ (if r.emails.length > 0 then (2 : ℚ)/5 else 0) := by
      split_ifs <;> norm_num
    have h2 : 0 ≤ (if r.founders.length > 0 then (3 : ℚ)/10 else 0) := by
      split_ifs <;> norm_num
    have h3 : 0 ≤ (if r.sources.length > 0 then (3 : ℚ)/10 else 0) := by
      split_ifs <;> norm_num
    unfold confidenceFactors
    rcases hpres with h | h | h
    · have hl : r.emails.length > 0 := List.length_pos.mpr h
      rw [if_pos hl]
      linarith
    · have hl : r.founders.length > 0 := List.length_pos.mpr h
      rw [if_pos hl]
      linarith
    · have hl : r.sources.length > 0 := List.length_pos.mpr h
      rw [if_pos hl]
      linarith

/-- Witness for claim C3 at a concrete profile with one email, no founder and
one source, discharging the range hypotheses. -/
theorem calculateConfidenceScore_spec_witness :
    0 ≤ calculateConfidenceScore
        { company_name := some "Tacos", phone := none, location := "México",
          industry := none,
          emails := [{ email := "contacto@tacos.com.mx", confidence := 9/10,
                       source := "pattern_generation", validated := false, priority := 1 }],
          founders := [], website := none, social_media := [], lead_score := 0,
          confidence_score := 0, sources := ["web_search"], processing_time_ms := 0,
          enriched_at := "T", enrichment_error := none }
      ∧ calculateConfidenceScore
        { company_name := some "Tacos", phone := none, location := "México",
          industry := none,
          emails := [{ email := "contacto@tacos.com.mx", confidence := 9/10,
                       source := "pattern_generation", validated := false, priority := 1 }],
          founders := [], website := none, social_media := [], lead_score := 0,
          confidence_score := 0, sources := ["web_search"], processing_time_ms := 0,
          enriched_at := "T", enrichment_error := none } ≤ 1 :=
  (calculateConfidenceScore_spec
    { company_name := some "Tacos", phone := none, location := "México",
      industry := none,
      emails := [{ email := "contacto@tacos.com.mx", confidence := 9/10,
                   source := "pattern_generation", validated := false, priority := 1 }],
      founders := [], website := none, social_media := [], lead_score := 0,
      confidence_score := 0, sources := ["web_search"], processing_time_ms := 0,
      enriched_at := "T", enrichment_error := none }).2.1
    (by
      intro e he
      simp only [List.mem_singleton] at he
      subst he
      norm_num)
    (by
      intro f hf
      simp at hf)

/-- Claim C5 counterexample: guessDomain performs no legal-entity suffix
stripping; on the name Empresa S.A. de C.V. the code keeps the letters of the
suffix in the slug, while the suffix-stripping guesser the claim describes
drops them, so the two disagree at this input. -/
theorem guessDomain_suffix_counterexample :
    guessDomain "Empresa S.A. de C.V." none = "empresasadecv.com.mx"
    ∧ guessDomainSpec "Empresa S.A. de C.V." = "empresa.com.mx"
    ∧ guessDomain "Empresa S.A. de C.V." none ≠ guessDomainSpec "Empresa S.A. de C.V." :=
  ⟨by decide, by decide, by decide⟩

/-- Claim C5 (amended): without a website, guessDomain lowercases the name and
deletes the non-alphanumerics (leaving legal-entity letters in place), then
appends the fixed .com.mx ending; the core before the ending consists of
lowercase alphanumerics only, a name empty after stripping yields the bare
ending, and the function is total. -/
theorem guessDomain_slug_shape (name : String) :
    ∃ core : String, guessDomain name none = core ++ ".com.mx"
      ∧ core.data.all isAlnumChar = true := by
  refine ⟨cleanNameGuess name, rfl, ?_⟩
  rw [List.all_eq_true]
  intro c hc
  have hc' : c ∈ ((lowerStr name).data.filter
      (fun c => isAlnumChar c || isSpaceChar c)).filter (fun c => !isSpaceChar c) := hc
  have h2 : (!isSpaceChar c) = true := (List.mem_filter.mp hc').2
  have h1 : (isAlnumChar c || isSpaceChar c) = true :=
    (List.mem_filter.mp (List.mem_filter.mp hc').1).2
  rcases (Bool.or_eq_true _ _).mp h1 with h | h
  · exact h
  · rw [h] at h2
    simp at h2

/-- Claim C8 counterexample: findOfficialWebsite accepts a URL that merely
contains .com as a substring without ending in any of the three TLDs, so the
ends-in reading of the claim is refuted at this input. -/
theorem findOfficialWebsite_endsWith_counterexample :
    findOfficialWebsite
        [{ title := "t", url := "https://empresa.community/page", snippet := "s" }]
        "Empresa" = some "https://empresa.community/page"
    ∧ strEndsWith (lowerStr "https://empresa.community/page") ".com.mx" = false
    ∧ strEndsWith (lowerStr "https://empresa.community/page") ".mx" = false
    ∧ strEndsWith (lowerStr "https://empresa.community/page") ".com" = false :=
  ⟨by decide, by decide, by decide, by decide⟩

/-- Claim C8 (amended): findOfficialWebsite returns the URL of the first result
whose lowercased URL contains the stripped company name and contains, as a
substring rather than as an ending, one of .com.mx, .mx, .com; it returns none
exactly when no result passes that test. -/
theorem findOfficialWebsite_first_match (rs : List WebResult) (n : String) :
    (∀ u, findOfficialWebsite rs n = some u ↔
      ∃ r as bs, rs = as ++ r :: bs ∧ officialSiteCond (stripAlnumLower n) r = true
        ∧ r.url = u ∧ ∀ a ∈ as, officialSiteCond (stripAlnumLower n) a = false)
    ∧ (findOfficialWebsite rs n = none ↔
      ∀ r ∈ rs, officialSiteCond (stripAlnumLower n) r = false) := by
  constructor
  · intro u
    unfold findOfficialWebsite
    constructor
    · intro h
      rw [Option.map_eq_some'] at h
      obtain ⟨r, hfind, hurl⟩ := h
      rw [List.find?_eq_some] at hfind
      obtain ⟨hcond, as, bs, heq, hprev⟩ := hfind
      exact ⟨r, as, bs, heq, hcond, hurl, fun a ha => by simpa using hprev a ha⟩
    · rintro ⟨r, as, bs, rfl, hcond, rfl, hprev⟩
      rw [Option.map_eq_some']
      refine ⟨r, ?_, rfl⟩
      rw [List.find?_eq_some]
      exact ⟨hcond, as, bs, rfl, fun a ha => by simp [hprev a ha]⟩
  · unfold findOfficialWebsite
    rw [Option.map_eq_none', List.find?_eq_none]
    constructor
    · intro h r hr
      simpa using h r hr
    · intro h r hr
      simp [h r hr]

/-- Witness for the amended claim C8 on a concrete result list with no match. -/
theorem findOfficialWebsite_first_match_witness :
    findOfficialWebsite [{ title := "t", url := "https://other.org/", snippet := "s" }]
      "Empresa" = none :=
  (findOfficialWebsite_first_match
    [{ title := "t", url := "https://other.org/", snippet := "s" }] "Empresa").2.mpr
    (by decide)

/-- Splitting at the separator distributes over an append whose left part is
free of the separator. -/
theorem charSplit_append (L D : List Char) (h : '@' ∉ L) :
    charSplit '@' (L ++ '@' :: D) = L :: charSplit '@' D := by
  induction L with
  | nil => simp [charSplit]
  | cons c cs ih =>
    have hc : ¬(c = '@') := fun e => h (by simp [e])
    have hcs : '@' ∉ cs := fun m => h (List.mem_cons_of_mem _ m)
    simp [charSplit, hc, ih hcs]

/-- The split-off domain of a generated address local-at-domain is determined by
the domain alone. -/
theorem domainOf_localAt (L d : String) (h : '@' ∉ L.data) :
    domainOf (L ++ "@" ++ d) = (charSplit '@' d.data).get? 0 := by
  unfold domainOf
  have hdata : (L ++ "@" ++ d).data = L.data ++ '@' :: d.data := by
    rw [String.data_append, String.data_append, List.append_assoc]
    rfl
  rw [hdata, charSplit_append _ _ h]
  rfl

/-- calculateEmailConfidence regrouped as its shared part plus the
contacto-or-info bonus, before the clamp. -/
theorem calculateEmailConfidence_eq (email n : String) :
    calculateEmailConfidence email n
      = min (emailBase email n + (if emailHi email then (1:ℚ)/5 else 0)) 1 := by
  simp only [calculateEmailConfidence, emailBase]
  congr 1
  ring

/-- A contacto or info address ranks in the top two priorities. -/
theorem getEmailPriority_le_of_hi {e : String} (h : emailHi e = true) :
    getEmailPriority e ≤ 2 := by
  unfold emailHi at h
  unfold getEmailPriority
  by_cases hc : strIncludes e "contacto@" = true
  · simp [hc]
  · have hi : strIncludes e "info@" = true := by
      rcases (Bool.or_eq_true _ _).mp h with h1 | h1
      · exact absurd h1 hc
      · exact h1
    simp [hc, hi]

/-- An address with neither contacto nor info ranks at priority three or
worse. -/
theorem three_le_getEmailPriority {e : String} (h : emailHi e = false) :
    3 ≤ getEmailPriority e := by
  simp only [emailHi, Bool.or_eq_false_iff] at h
  unfold getEmailPriority
  simp [h.1, h.2]
  split_ifs <;> omega

/-- With a shared base, an address loses to any contacto-or-info address in
confidence. -/
theorem conf_le_conf_of_hi {e1 e2 n : String}
    (hbase : emailBase e1 n = emailBase e2 n) (h2 : emailHi e2 = true) :
    calculateEmailConfidence e1 n ≤ calculateEmailConfidence e2 n := by
  rw [calculateEmailConfidence_eq, calculateEmailConfidence_eq, hbase, if_pos h2]
  apply min_le_min _ le_rfl
  split_ifs <;> linarith

/-- With a shared base, an address without the contacto-or-info bonus loses to
every other address in confidence. -/
theorem conf_le_conf_of_not_hi {e1 e2 n : String}
    (hbase : emailBase e1 n = emailBase e2 n) (h1 : emailHi e1 = false) :
    calculateEmailConfidence e1 n ≤ calculateEmailConfidence e2 n := by
  rw [calculateEmailConfidence_eq, calculateEmailConfidence_eq, hbase,
    if_neg (show ¬(emailHi e1 = true) by simp [h1])]
  apply min_le_min _ le_rfl
  split_ifs <;> linarith

/-- Generated addresses over one domain share the base part of the confidence
formula. -/
theorem emailBase_shared {L1 L2 d n : String} (h1 : '@' ∉ L1.data) (h2 : '@' ∉ L2.data) :
    emailBase (L1 ++ "@" ++ d) n = emailBase (L2 ++ "@" ++ d) n := by
  simp only [emailBase]
  rw [domainOf_localAt _ _ h1, domainOf_localAt _ _ h2]

/-- None of the eight fixed local parts contains an at-sign. -/
theorem emailLocals_no_at : ∀ L ∈ emailLocals, '@' ∉ L.data := by decide

/-- On the generated candidate list, the comparator order implies the
priority-primary order the specification asks for: a strict confidence gap only
ever separates a contacto-or-info address (priority at most two) from one
without the bonus (priority at least three). -/
theorem jsLe_imp_prioThenConf {n d : String} {a b : EmailCandidate}
    (ha : a ∈ emailLocals.map (fun L => mkCandidate n (L ++ "@" ++ d)))
    (hb : b ∈ emailLocals.map (fun L => mkCandidate n (L ++ "@" ++ d)))
    (hle : jsLe a b) : prioThenConf a b := by
  obtain ⟨L1, hL1, rfl⟩ := List.mem_map.mp ha
  obtain ⟨L2, hL2, rfl⟩ := List.mem_map.mp hb
  have hbase : emailBase (L1 ++ "@" ++ d) n = emailBase (L2 ++ "@" ++ d) n :=
    emailBase_shared (emailLocals_no_at _ hL1) (emailLocals_no_at _ hL2)
  unfold jsLe at hle
  unfold prioThenConf
  simp only [mkCandidate] at hle ⊢
  rcases hle with hlt | ⟨heq, hp⟩
  · left
    by_cases h2 : emailHi (L2 ++ "@" ++ d) = true
    · exact absurd hlt (not_lt.mpr (conf_le_conf_of_hi hbase h2))
    · have h2f : emailHi (L2 ++ "@" ++ d) = false := by simpa using h2
      by_cases h1 : emailHi (L1 ++ "@" ++ d) = true
      · have p1 := getEmailPriority_le_of_hi h1
        have p2 := three_le_getEmailPriority h2f
        omega
      · have h1f : emailHi (L1 ++ "@" ++ d) = false := by simpa using h1
        exact absurd hlt (not_lt.mpr (conf_le_conf_of_not_hi hbase h1f))
  · rcases Nat.lt_or_ge (getEmailPriority (L1 ++ "@" ++ d))
        (getEmailPriority (L2 ++ "@" ++ d)) with hlt2 | hge
    · exact Or.inl hlt2
    · exact Or.inr ⟨Nat.le_antisymm hp hge, heq.ge⟩

/-- Claim C4: the sequence returned by findContactEmails is sorted with
priority ascending as the primary key and confidence descending as the
secondary key, for every company name and website argument. -/
theorem findContactEmails_sorted (n : String) (w : Option String) :
    List.Pairwise prioThenConf (findContactEmails n w) := by
  simp only [findContactEmails]
  by_cases hd : guessDomain n w = ""
  · simp [hd]
  · rw [if_neg hd]
    apply List.Pairwise.sublist (List.take_sublist _ _)
    have hs := List.sorted_insertionSort jsLe
      (emailLocals.map (fun L => mkCandidate n (L ++ "@" ++ guessDomain n w)))
    refine List.Pairwise.imp_of_mem ?_ hs
    intro a b hma hmb hab
    have pm := List.perm_insertionSort jsLe
      (emailLocals.map (fun L => mkCandidate n (L ++ "@" ++ guessDomain n w)))
    exact jsLe_imp_prioThenConf (pm.mem_iff.mp hma) (pm.mem_iff.mp hmb) hab

/-- Every generated confidence sits inside [1/2, 1]: the base 1/2 only ever
grows before the clamp at 1. -/
theorem calculateEmailConfidence_bounds (e n : String) :
    (1:ℚ)/2 ≤ calculateEmailConfidence e n ∧ calculateEmailConfidence e n ≤ 1 := by
  simp only [calculateEmailConfidence]
  refine ⟨?_, min_le_right _ _⟩
  refine le_min ?_ (by norm_num)
  cases domainOf e <;> dsimp only <;> split_ifs <;> norm_num

/-- Claim C9: with a name and no website the guessed domain is never empty, so
findContactEmails returns exactly five candidates, each with confidence inside
[1/2, 1], source pattern_generation and validated false. -/
theorem findContactEmails_five (n : String) :
    (findContactEmails n none).length = 5
    ∧ (findContactEmails n none).all (fun e =>
        decide ((1:ℚ)/2 ≤ e.confidence) && decide (e.confidence ≤ 1)
        && (e.source == "pattern_generation") && (e.validated == false)) = true := by
  have hd : ¬(guessDomain n none = "") := by
    simp only [guessDomain]
    intro h
    have h3 : (cleanNameGuess n).data.length + ".com.mx".data.length = 0 := by
      simpa [String.data_append] using congrArg (fun s => s.data.length) h
    have h4 : ".com.mx".data.length = 7 := rfl
    omega
  constructor
  · simp only [findContactEmails]
    rw [if_neg hd, List.length_take, (List.perm_insertionSort jsLe _).length_eq,
      List.length_map]
    rfl
  · rw [List.all_eq_true]
    intro e he
    simp only [findContactEmails] at he
    rw [if_neg hd] at he
    have hmem := (List.perm_insertionSort jsLe _).mem_iff.mp (List.mem_of_mem_take he)
    obtain ⟨L, hL, rfl⟩ := List.mem_map.mp hmem
    have hb := calculateEmailConfidence_bounds (L ++ "@" ++ guessDomain n none) n
    rw [one_div] at hb
    simp [mkCandidate, decide_eq_true_eq, hb.1, hb.2]

/-- The orchestrator records elapsed time on both the success and the error
path. -/
theorem enrich_processing_time (name? phone? : Option String) (loc : String)
    (industry? : Option String) (env : Env) :
    (enrichCompanyComplete name? phone? loc industry? env).processing_time_ms
      = env.elapsedMs := by
  simp only [enrichCompanyComplete]
  by_cases hi : optStrTruthy industry? = true
  · rw [if_pos hi]
    rfl
  · rw [if_neg hi]
    cases name? with
    | none => rfl
    | some nm => rfl

/-- The one reachable exception: enrichment_error is set exactly when the name
is undefined and no truthy industry was supplied. -/
theorem enrich_error_iff (name? phone? : Option String) (loc : String)
    (industry? : Option String) (env : Env) :
    (enrichCompanyComplete name? phone? loc industry? env).enrichment_error
      = if name? = none ∧ optStrTruthy industry? = false
        then some typeErrorMsg else none := by
  by_cases hi : optStrTruthy industry? = true
  · rw [if_neg (by simp [hi])]
    simp only [enrichCompanyComplete]
    rw [if_pos hi]
    rfl
  · have hif : optStrTruthy industry? = false := by simpa using hi
    simp only [enrichCompanyComplete]
    rw [if_neg hi]
    cases name? with
    | none =>
      rw [if_pos (show (none : Option String) = none ∧ optStrTruthy industry? = false from
        ⟨rfl, hif⟩)]
    | some nm =>
      rw [if_neg (show ¬((some nm : Option String) = none ∧ optStrTruthy industry? = false)
        by simp)]
      rfl

/-- Field values of the partial profile returned on the error path. -/
theorem enrich_error_partial (phone? : Option String) (loc : String)
    (industry? : Option String) (env : Env) (hif : optStrTruthy industry? = false) :
    (enrichCompanyComplete none phone? loc industry? env).company_name = none
    ∧ (enrichCompanyComplete none phone? loc industry? env).phone = phone?
    ∧ (enrichCompanyComplete none phone? loc industry? env).location = loc
    ∧ (enrichCompanyComplete none phone? loc industry? env).lead_score = 0
    ∧ (enrichCompanyComplete none phone? loc industry? env).social_media = [] := by
  simp only [enrichCompanyComplete]
  rw [if_neg (by simp [hif])]
  exact ⟨rfl, rfl, rfl, rfl, rfl⟩

/-- Claim C6: the orchestrator never raises; the only exception reachable
inside steps two to eight (the TypeError of detectIndustry on an undefined
name with no industry supplied) is caught at the orchestrator boundary, which
then returns the partially built profile with enrichment_error set to the error
message, processing_time_ms set, the input fields intact, and the
not-yet-computed fields at their initial values; on every other input the call
returns an error-free profile, again with processing_time_ms set. -/
theorem enrich_catches_exceptions (name? phone? : Option String) (loc : String)
    (industry? : Option String) (env : Env) :
    ((name? = none ∧ optStrTruthy industry? = false) →
      (enrichCompanyComplete name? phone? loc industry? env).enrichment_error
          = some typeErrorMsg
      ∧ (enrichCompanyComplete name? phone? loc industry? env).processing_time_ms
          = env.elapsedMs
      ∧ (enrichCompanyComplete name? phone? loc industry? env).company_name = name?
      ∧ (enrichCompanyComplete name? phone? loc industry? env).phone = phone?
      ∧ (enrichCompanyComplete name? phone? loc industry? env).location = loc
      ∧ (enrichCompanyComplete name? phone? loc industry? env).lead_score = 0
      ∧ (enrichCompanyComplete name? phone? loc industry? env).social_media = [])
    ∧ (¬(name? = none ∧ optStrTruthy industry? = false) →
      (enrichCompanyComplete name? phone? loc industry? env).enrichment_error = none
      ∧ (enrichCompanyComplete name? phone? loc industry? env).processing_time_ms
          = env.elapsedMs) := by
  constructor
  · rintro ⟨rfl, hif⟩
    have herr := enrich_error_iff none phone? loc industry? env
    rw [if_pos ⟨rfl, hif⟩] at herr
    have hp := enrich_error_partial phone? loc industry? env hif
    exact ⟨herr, enrich_processing_time _ _ _ _ _, hp.1, hp.2.1, hp.2.2.1,
      hp.2.2.2.1, hp.2.2.2.2⟩
  · intro hno
    have herr := enrich_error_iff name? phone? loc industry? env
    rw [if_neg hno] at herr
    exact ⟨herr, enrich_processing_time _ _ _ _ _⟩

/-- Witness for claim C6 at a concrete throwing input: undefined name, no
industry. -/
theorem enrich_catches_exceptions_witness :
    (enrichCompanyComplete none (some "5512345678") "México" none
        ⟨0, false, false, false, 7, "T"⟩).enrichment_error = some typeErrorMsg
    ∧ (enrichCompanyComplete none (some "5512345678") "México" none
        ⟨0, false, false, false, 7, "T"⟩).processing_time_ms = 7 := by
  have h := (enrich_catches_exceptions none (some "5512345678") "México" none
    ⟨0, false, false, false, 7, "T"⟩).1 ⟨rfl, rfl⟩
  exact ⟨h.1, h.2.1⟩

/-- The error test of one batch item, in terms of its record fields. -/
theorem enrichFromRecord_error (c : CompanyRecord) (env : Env) :
    (enrichFromRecord c env).enrichment_error
      = if jsOr c.company_name c.empresa = none
            ∧ optStrTruthy (jsOr c.industry c.sector) = false
        then some typeErrorMsg else none := by
  unfold enrichFromRecord
  exact enrich_error_iff _ _ _ _ _

/-- Claim C7 (amended): a record whose name is absent under both accepted field
names errors only when its industry is also absent under both accepted field
names; the batch then reports that single item as the error entry while the
named items are enriched without error. -/
theorem batch_missing_name_and_industry (c1 c2 c3 : CompanyRecord) (envs : Nat → Env)
    (h1 : optStrTruthy (jsOr c1.company_name c1.empresa) = true)
    (h3 : optStrTruthy (jsOr c3.company_name c3.empresa) = true)
    (h2n : jsOr c2.company_name c2.empresa = none)
    (h2i : optStrTruthy (jsOr c2.industry c2.sector) = false) :
    (enrichBatch [c1, c2, c3] envs).processed = 3
    ∧ (enrichBatch [c1, c2, c3] envs).successful = 2
    ∧ (enrichBatch [c1, c2, c3] envs).failed = 1
    ∧ (enrichBatch [c1, c2, c3] envs).results.map (fun p => p.enrichment_error)
      = [none, some typeErrorMsg, none] := by
  have e1 : (enrichFromRecord c1 (envs 0)).enrichment_error = none := by
    rw [enrichFromRecord_error, if_neg]
    rintro ⟨hn, _⟩
    rw [hn] at h1
    simp [optStrTruthy] at h1
  have e2 : (enrichFromRecord c2 (envs 1)).enrichment_error = some typeErrorMsg := by
    rw [enrichFromRecord_error, if_pos ⟨h2n, h2i⟩]
  have e3 : (enrichFromRecord c3 (envs 2)).enrichment_error = none := by
    rw [enrichFromRecord_error, if_neg]
    rintro ⟨hn, _⟩
    rw [hn] at h3
    simp [optStrTruthy] at h3
  have hok1 : profileOk (enrichFromRecord c1 (envs 0)) = true := by
    simp [profileOk, e1, optStrTruthy]
  have hok2 : profileOk (enrichFromRecord c2 (envs 1)) = false := by
    simp only [profileOk, e2, optStrTruthy]
    decide
  have hok3 : profileOk (enrichFromRecord c3 (envs 2)) = true := by
    simp [profileOk, e3, optStrTruthy]
  have henum : List.enum [c1, c2, c3] = [(0, c1), (1, c2), (2, c3)] := rfl
  unfold enrichBatch
  rw [henum]
  simp [List.filter, hok1, hok2, hok3, e1, e2, e3]

/-- Witness for the amended claim C7 at a concrete batch: one record with
neither name nor industry between two named records. -/
theorem batch_missing_name_and_industry_witness :
    (enrichBatch [{ company_name := some "Alfa" }, {}, { company_name := some "Beta" }]
        (fun _ => ⟨0, false, false, false, 0, "T"⟩)).processed = 3
    ∧ (enrichBatch [{ company_name := some "Alfa" }, {}, { company_name := some "Beta" }]
        (fun _ => ⟨0, false, false, false, 0, "T"⟩)).successful = 2
    ∧ (enrichBatch [{ company_name := some "Alfa" }, {}, { company_name := some "Beta" }]
        (fun _ => ⟨0, false, false, false, 0, "T"⟩)).failed = 1
    ∧ (enrichBatch [{ company_name := some "Alfa" }, {}, { company_name := some "Beta" }]
        (fun _ => ⟨0, false, false, false, 0, "T"⟩)).results.map
        (fun p => p.enrichment_error) = [none, some typeErrorMsg, none] :=
  batch_missing_name_and_industry
    { company_name := some "Alfa" } {} { company_name := some "Beta" }
    (fun _ => ⟨0, false, false, false, 0, "T"⟩) (by decide) (by decide) rfl rfl

/-- Claim C7 counterexample: a record lacking company_name but supplying an
industry is enriched without error, so this batch of three companies with
exactly one nameless record reports three successes, zero failures and no error
entry, not two successes and one failure. -/
theorem batch_missing_name_counterexample :
    (enrichBatch
        [{ company_name := some "Alfa" }, { industry := some "tecnología" },
          { company_name := some "Beta" }]
        (fun _ => ⟨0, false, false, false, 0, "T"⟩)).processed = 3
    ∧ (enrichBatch
        [{ company_name := some "Alfa" }, { industry := some "tecnología" },
          { company_name := some "Beta" }]
        (fun _ => ⟨0, false, false, false, 0, "T"⟩)).successful = 3
    ∧ (enrichBatch
        [{ company_name := some "Alfa" }, { industry := some "tecnología" },
          { company_name := some "Beta" }]
        (fun _ => ⟨0, false, false, false, 0, "T"⟩)).failed = 0
    ∧ ({ industry := some "tecnología" } : CompanyRecord).company_name = none
    ∧ (enrichBatch
        [{ company_name := some "Alfa" }, { industry := some "tecnología" },
          { company_name := some "Beta" }]
        (fun _ => ⟨0, false, false, false, 0, "T"⟩)).results.map
        (fun p => p.enrichment_error) = [none, none, none] := by
  have e1 : (enrichFromRecord { company_name := some "Alfa" }
      ⟨0, false, false, false, 0, "T"⟩).enrichment_error = none := by
    rw [enrichFromRecord_error, if_neg]
    rintro ⟨hn, _⟩
    revert hn
    decide
  have e2 : (enrichFromRecord { industry := some "tecnología" }
      ⟨0, false, false, false, 0, "T"⟩).enrichment_error = none := by
    rw [enrichFromRecord_error, if_neg]
    rintro ⟨_, hi⟩
    revert hi
    decide
  have e3 : (enrichFromRecord { company_name := some "Beta" }
      ⟨0, false, false, false, 0, "T"⟩).enrichment_error = none := by
    rw [enrichFromRecord_error, if_neg]
    rintro ⟨hn, _⟩
    revert hn
    decide
  have hok1 : profileOk (enrichFromRecord { company_name := some "Alfa" }
      ⟨0, false, false, false, 0, "T"⟩) = true := by
    simp [profileOk, e1, optStrTruthy]
  have hok2 : profileOk (enrichFromRecord { industry := some "tecnología" }
      ⟨0, false, false, false, 0, "T"⟩) = true := by
    simp [profileOk, e2, optStrTruthy]
  have hok3 : profileOk (enrichFromRecord { company_name := some "Beta" }
      ⟨0, false, false, false, 0, "T"⟩) = true := by
    simp [profileOk, e3, optStrTruthy]
  unfold enrichBatch
  rw [show List.enum [({ company_name := some "Alfa" } : CompanyRecord),
      { industry := some "tecnología" }, { company_name := some "Beta" }]
    = [(0, ({ company_name := some "Alfa" } : CompanyRecord)),
      (1, { industry := some "tecnología" }), (2, { company_name := some "Beta" })] from rfl]
  refine ⟨by simp, ?_, ?_, rfl, by simp [e1, e2, e3]⟩
  · simp [List.filter, hok1, hok2, hok3]
  · simp [List.filter, hok1, hok2, hok3]

/-- Claim C1 (code bug): the orchestrator never reads the cache. With a live
entry (written 10 seconds earlier, well inside the 3600 second TTL) stored
under the exact key of the call, the call still recomputes everything and
returns a fresh profile different from the cached one, instead of returning the
cached profile verbatim. -/
theorem cache_live_entry_ignored :
    cacheGetLive
        [{ key := cacheKey (some "Tacos") "México", profile := cachedProfileEx,
           writtenAt := 0 }]
        (cacheKey (some "Tacos") "México") 10 = some cachedProfileEx
    ∧ (enrichWithCache
        [{ key := cacheKey (some "Tacos") "México", profile := cachedProfileEx,
           writtenAt := 0 }]
        true (some "Tacos") none "México" none
        ⟨0, false, false, false, 5, "T1"⟩ 10).1.company_name = some "Tacos"
    ∧ (enrichWithCache
        [{ key := cacheKey (some "Tacos") "México", profile := cachedProfileEx,
           writtenAt := 0 }]
        true (some "Tacos") none "México" none
        ⟨0, false, false, false, 5, "T1"⟩ 10).1 ≠ cachedProfileEx := by
  refine ⟨rfl, rfl, ?_⟩
  intro h
  have hc : (enrichWithCache
      [{ key := cacheKey (some "Tacos") "México", profile := cachedProfileEx,
         writtenAt := 0 }]
      true (some "Tacos") none "México" none
      ⟨0, false, false, false, 5, "T1"⟩ 10).1.company_name = some "Tacos" := rfl
  rw [h] at hc
  exact absurd hc (by decide)

end Enrichment
